import Mathlib

/-!
Verification of the CSV ingestion pipeline in `src/file_processor.py`
(class `FileProcessor`: `read_csv_file`, `validate_data`, `process_all_files`).

The embedding models a pandas DataFrame as a list of column names together
with a list of rows (each row a list of cells).  Compound pandas behaviour
is translated operation by operation:
  * `pd.read_csv` either yields a DataFrame or raises one of
    `FileNotFoundError`, `EmptyDataError`, `ParserError`, or any other
    exception; the outcome of reading one path is the input `RawRead`.
  * `pd.to_datetime(col, errors='coerce')` normalizes each convertible cell
    to a temporal value and turns every unconvertible cell into NaT
    (`Value.dateVal none`); convertibility of a raw string is modelled by a
    numeric date parse.
  * `pd.concat(dfs, ignore_index=True)` takes the union of the column sets
    and stacks the rows, filling absent columns with NaN.
A directory listing (`os.listdir`) is modelled by `Listing`: either one of
the two directory-level exceptions or the list of entries, each entry a
file name paired with the `RawRead` outcome of reading it.
-/

namespace FileProcessor

/-- A cell of a DataFrame: a raw string, a normalized date (`none` = NaT),
a processing timestamp, or NaN (missing). -/
inductive Value where
  | str (s : String)
  | dateVal (d : Option Nat)
  | time (t : Nat)
  | nan

deriving instance DecidableEq, Repr for Value

/-- A pandas DataFrame: named columns and the rows of cells, each row
aligned positionally with the column list. -/
structure DataFrame where
  cols : List String
  rows : List (List Value)

deriving instance DecidableEq, Repr for DataFrame

/-- Read a digit string as a number; `none` on the first non-digit. -/
def digitsToNat? : List Char → Nat → Option Nat
  | [], acc => some acc
  | c :: cs, acc =>
    if c.isDigit then digitsToNat? cs (acc * 10 + (c.toNat - 48)) else none

/-- Convertibility of one raw string under `pd.to_datetime`: modelled as a
non-empty all-digit date key (e.g. `20250901`) mapping to its ordinal. -/
def parseDateStr (s : String) : Option Nat :=
  if s.data.isEmpty then none else digitsToNat? s.data 0

/-- Models `pd.to_datetime(value, errors='coerce')` on a single cell:
convertible values become a normalized date, unconvertible ones become
NaT (`dateVal none`). -/
def coerceDate : Value → Value
  | .str s => .dateVal (parseDateStr s)
  | .dateVal d => .dateVal d
  | .time t => .dateVal (some t)
  | .nan => .dateVal none

/-- A cell whose date conversion yields the missing-date sentinel. -/
def unconvertible : Value → Bool
  | .str s => (parseDateStr s).isNone
  | .dateVal d => d.isNone
  | .time _ => false
  | .nan => true

/-- Is this cell the NaT missing-date sentinel (what `isna()` sees in a
datetime column)? -/
def isNaT : Value → Bool
  | .dateVal none => true
  | _ => false

/-- Column lookup in a row: walk columns and cells in lockstep and return
the cell under the first column with the given name; NaN if the column is
absent or the row is exhausted. -/
def getCell : List String → List Value → String → Value
  | c :: cs, v :: vs, name => if c = name then v else getCell cs vs name
  | _ :: _, [], _ => .nan
  | [], _, _ => .nan

/-- Apply the date coercion to every cell sitting under a column named
`fecha`, leaving all other cells unchanged (one row). -/
def convRow : List String → List Value → List Value
  | _, [] => []
  | [], vs => vs
  | c :: cs, v :: vs => (if c = "fecha" then coerceDate v else v) :: convRow cs vs

/-- Lines 64-66: `if 'fecha' in df.columns: df['fecha'] =
pd.to_datetime(df['fecha'], errors='coerce')`. -/
def convertFecha (df : DataFrame) : DataFrame :=
  if df.cols.contains "fecha" then
    { cols := df.cols, rows := df.rows.map (convRow df.cols) }
  else df

/-- Line 68: `invalid_dates = df['fecha'].isna().sum()` — the count the
code prints as a warning when positive. -/
def invalidDates (df : DataFrame) : Nat :=
  df.rows.countP (fun r => isNaT (getCell df.cols r "fecha"))

/-- The exceptions `pd.read_csv` can raise, as discriminated by the
`except` arms of `read_csv_file` (lines 79-94). -/
inductive PExc where
  | fileNotFoundError
  | emptyDataError
  | parserError (msg : String)
  | otherExc (name msg : String)

deriving instance DecidableEq, Repr for PExc

/-- The outcome of reading one file path: the parsed DataFrame, or the
exception raised. -/
inductive RawRead where
  | ok (df : DataFrame)
  | exc (e : PExc)

deriving instance DecidableEq, Repr for RawRead

/-- The per-file failure taxonomy of the parser boundary. -/
inductive ReadFailure where
  | fileNotFound
  | emptyInput
  | malformedInput (msg : String)
  | unexpected (name msg : String)

deriving instance DecidableEq, Repr for ReadFailure

deriving instance DecidableEq for Except

/-- Lines 42-94, `FileProcessor.read_csv_file`: parse the file, normalize
the `fecha` column when present, and map each exception class to its
logged per-file failure; every exception is caught (`except Exception`
last), so the function is total. -/
def read_csv_file : RawRead → Except ReadFailure DataFrame
  | .ok df => .ok (convertFecha df)
  | .exc .fileNotFoundError => .error .fileNotFound
  | .exc .emptyDataError => .error .emptyInput
  | .exc (.parserError m) => .error (.malformedInput m)
  | .exc (.otherExc n m) => .error (.unexpected n m)

/-- Line 118: the five required columns. -/
def required_colums : List String :=
  ["fecha", "turno", "maquina", "produccion_unidades", "operario"]

/-- Line 121: `[col for col in required_colums if col not in df.columns]`
— the missing-column list the validator reports. -/
def missing_colums (df : DataFrame) : List String :=
  required_colums.filter (fun c => !df.cols.contains c)

/-- Lines 96-129, `FileProcessor.validate_data`: None is invalid, an empty
DataFrame is invalid, a DataFrame missing a required column is invalid;
anything else is valid. -/
def validate_data : Option DataFrame → Bool
  | none => false
  | some df =>
    if df.rows = [] then false
    else if missing_colums df = [] then true
    else false

/-- The symmetric difference of two column sets, as a list: elements of
`a` not in `b` followed by elements of `b` not in `a`. -/
def symmDiffCols (a b : List String) : List String :=
  a.filter (fun c => !b.contains c) ++ b.filter (fun c => !a.contains c)

/-- Append a column holding the same value in every row (lines 180-181:
`df['archivo_origen'] = filename`, `df['fecha_procesamiento'] = ...`). -/
def addConstCol (name : String) (v : Value) (df : DataFrame) : DataFrame :=
  { cols := df.cols ++ [name], rows := df.rows.map (fun r => r ++ [v]) }

/-- Lines 180-181: stamp the two provenance columns on a validated table.
`now` is the current `datetime.now()` instant. -/
def stampMetadata (filename : String) (now : Nat) (df : DataFrame) : DataFrame :=
  addConstCol "fecha_procesamiento" (.time now)
    (addConstCol "archivo_origen" (.str filename) df)

/-- Union of column lists in first-appearance order (how `pd.concat`
combines differing column sets). -/
def unionCols (acc cs : List String) : List String :=
  acc ++ cs.filter (fun c => !acc.contains c)

/-- All columns of a list of DataFrames, in first-appearance order. -/
def allCols (dfs : List DataFrame) : List String :=
  dfs.foldl (fun a d => unionCols a d.cols) []

/-- Re-express one row over a new column list: keep the cell where the
column exists, NaN elsewhere. -/
def reindexRow (oldCols newCols : List String) (row : List Value) : List Value :=
  newCols.map (fun c => getCell oldCols row c)

/-- Line 203: `pd.concat(valid_dataframes, ignore_index=True)` — union of
columns, rows stacked in order, fresh contiguous index. -/
def concatDFs (dfs : List DataFrame) : DataFrame :=
  let cs := allCols dfs
  { cols := cs, rows := (dfs.map (fun d => d.rows.map (reindexRow d.cols cs))).flatten }

/-- The parsed table of one read outcome (the empty frame on failure;
only consulted when the read succeeded). -/
def parsedDF : RawRead → DataFrame
  | .ok df => convertFecha df
  | .exc _ => ⟨[], []⟩

/-- Line 178: `df is not None and self.validate_data(df)` — does this file
enter the merge? -/
def acceptedFile (raw : RawRead) : Bool :=
  match read_csv_file raw with
  | .ok df => validate_data (some df)
  | .error _ => false

/-- The state built by the per-file loop (lines 164-188): the collected
valid DataFrames, the processed file names, and the failed file names,
each in processing order. -/
structure LoopResult where
  valid_dataframes : List DataFrame
  processed_files : List String
  failed_files : List String

deriving instance DecidableEq, Repr for LoopResult

/-- Lines 170-188: the per-file loop of `process_all_files`.  Each file is
read, recorded as processed, and either stamped and collected or added to
the failed list; the loop always continues to the next file. -/
def processLoop (now : Nat) : List (String × RawRead) → LoopResult
  | [] => ⟨[], [], []⟩
  | (name, raw) :: rest =>
    let r := processLoop now rest
    match read_csv_file raw with
    | .ok df =>
      if validate_data (some df) then
        ⟨stampMetadata name now df :: r.valid_dataframes,
         name :: r.processed_files, r.failed_files⟩
      else
        ⟨r.valid_dataframes, name :: r.processed_files, name :: r.failed_files⟩
    | .error _ =>
      ⟨r.valid_dataframes, name :: r.processed_files, name :: r.failed_files⟩

/-- The outcome of `os.listdir(self.input_folder)`: the two directory-level
exceptions handled at lines 157-162, or the directory entries (file name
paired with what reading that file yields). -/
inductive Listing where
  | notFound
  | permissionDenied
  | found (entries : List (String × RawRead))

/-- Does a file name end in `.csv`?  (`f.endswith('.csv')`, as a suffix
test on the character sequence.) -/
def endsWithCsv (name : String) : Bool :=
  List.isSuffixOf (".csv".data) name.data

/-- Line 145: `[f for f in all_files if f.endswith('.csv')]`. -/
def csvFiles (entries : List (String × RawRead)) : List (String × RawRead) :=
  entries.filter (fun e => endsWithCsv e.1)

/-- The directory-level failure classes of lines 157-162. -/
inductive DirFailure where
  | directoryNotFound
  | permissionDenied

deriving instance DecidableEq, Repr for DirFailure

/-- Which directory-level failure the two `except` arms at lines 157-162
report for a listing outcome, if any. -/
def discoverySignal : Listing → Option DirFailure
  | .notFound => some .directoryNotFound
  | .permissionDenied => some .permissionDenied
  | .found _ => none

/-- Lines 132-214, `FileProcessor.process_all_files`: list the directory
(directory-level failures return None at once), keep the `.csv` entries
(none found returns None), run the per-file loop, and concatenate the
valid tables (none valid returns None). -/
def process_all_files (now : Nat) : Listing → Option DataFrame
  | .notFound => none
  | .permissionDenied => none
  | .found entries =>
    let csvs := csvFiles entries
    if csvs = [] then none
    else
      let r := processLoop now csvs
      if r.valid_dataframes = [] then none
      else some (concatDFs r.valid_dataframes)

/-- Row count of the returned result (0 for the no-data sentinel). -/
def rowCount : Option DataFrame → Nat
  | none => 0
  | some df => df.rows.length

/-- The column of a DataFrame under a name, if present (what
`combined_df['fecha']` etc. at lines 207-209 access). -/
def getColumn (df : DataFrame) (c : String) : Option (List Value) :=
  if df.cols.contains c then some (df.rows.map (fun r => getCell df.cols r c)) else none

/-- Lines 206-209: the summary statistics computed after concatenation —
record count, distinct machine count, distinct shift count; `none` when a
needed column is absent. -/
def summaryStats (df : DataFrame) : Option (Nat × Nat × Nat) :=
  match getColumn df "fecha", getColumn df "maquina", getColumn df "turno" with
  | some _, some ms, some ts => some (df.rows.length, ms.dedup.length, ts.dedup.length)
  | _, _, _ => none

/-- Normalize every processing-timestamp cell to a fixed instant; two
results are "identical modulo the `fecha_procesamiento` values" exactly
when their `retime` images coincide. -/
def retime : Value → Value
  | .time _ => .time 0
  | v => v

/-- Apply a cell transformation to every cell of a DataFrame, keeping the
column names. -/
def mapCells (f : Value → Value) (df : DataFrame) : DataFrame :=
  { cols := df.cols, rows := df.rows.map (List.map f) }

/-- A parsed table missing the `operario` column but carrying an extra
column the schema does not mention. -/
def extraColsDF : DataFrame :=
  { cols := ["fecha", "turno", "maquina", "produccion_unidades", "extra"],
    rows := [[.str "1", .str "A", .str "M1", .str "5", .str "x"]] }

/-- The parsed table of a header-only CSV: columns present, zero data
rows (pandas parses such a file without raising `EmptyDataError`). -/
def headerOnlyDF : DataFrame :=
  { cols := required_colums, rows := [] }

/-- A rectangular two-row table with all required columns whose second
row carries an unparseable date value. -/
def sampleGoodDF : DataFrame :=
  { cols := required_colums,
    rows := [[.str "20250901", .str "A", .str "M1", .str "10", .str "Ana"],
             [.str "notadate", .str "B", .str "M2", .str "7", .str "Luis"]] }

/-- A sample directory: one valid CSV, one malformed CSV, one non-CSV
entry that discovery must ignore. -/
def sampleEntries : List (String × RawRead) :=
  [("a.csv", .ok sampleGoodDF),
   ("b.csv", .exc (.parserError "bad line")),
   ("notes.txt", .ok sampleGoodDF)]

/-- A directory holding a single zero-byte CSV. -/
def emptyOnlyEntries : List (String × RawRead) :=
  [("z.csv", .exc .emptyDataError)]

/-- The combined dataset a run over `sampleEntries` produces at instant 5. -/
def combinedSample : DataFrame :=
  concatDFs [stampMetadata "a.csv" 5 (convertFecha sampleGoodDF)]

/- Helper lemmas about the embedding. -/

theorem convRow_length : ∀ (cs : List String) (vs : List Value),
    (convRow cs vs).length = vs.length
  | _, [] => by simp [convRow]
  | [], _ :: _ => rfl
  | _ :: cs, _ :: vs => by simp [convRow, convRow_length cs vs]

theorem convertFecha_cols (df : DataFrame) : (convertFecha df).cols = df.cols := by
  unfold convertFecha; split <;> rfl

theorem convertFecha_rows_length (df : DataFrame) :
    (convertFecha df).rows.length = df.rows.length := by
  unfold convertFecha; split <;> simp

theorem stampMetadata_cols (name : String) (t : Nat) (d : DataFrame) :
    (stampMetadata name t d).cols =
      (d.cols ++ ["archivo_origen"]) ++ ["fecha_procesamiento"] := rfl

theorem stampMetadata_rows_length (name : String) (t : Nat) (d : DataFrame) :
    (stampMetadata name t d).rows.length = d.rows.length := by
  simp [stampMetadata, addConstCol]

theorem missing_colums_eq_nil_iff (df : DataFrame) :
    missing_colums df = [] ↔ ∀ c ∈ required_colums, c ∈ df.cols := by
  simp [missing_colums, List.filter_eq_nil_iff]

theorem validate_data_true_iff (df : DataFrame) :
    validate_data (some df) = true ↔ df.rows ≠ [] ∧ missing_colums df = [] := by
  show (if df.rows = [] then false
        else if missing_colums df = [] then true else false) = true ↔ _
  by_cases h1 : df.rows = [] <;> by_cases h2 : missing_colums df = [] <;> simp [h1, h2]

theorem acceptedFile_iff (raw : RawRead) :
    acceptedFile raw = true ↔
      read_csv_file raw = .ok (parsedDF raw) ∧
      validate_data (some (parsedDF raw)) = true := by
  cases raw with
  | ok df => simp [acceptedFile, read_csv_file, parsedDF]
  | exc e => cases e <;> simp [acceptedFile, read_csv_file, parsedDF, validate_data]

theorem processLoop_closed (now : Nat) : ∀ l : List (String × RawRead),
    processLoop now l =
      ⟨(l.filter (fun e => acceptedFile e.2)).map
          (fun e => stampMetadata e.1 now (parsedDF e.2)),
        l.map Prod.fst,
        (l.filter (fun e => !acceptedFile e.2)).map Prod.fst⟩
  | [] => rfl
  | (name, raw) :: rest => by
    have ih := processLoop_closed now rest
    cases hr : read_csv_file raw with
    | ok df =>
      have hp : parsedDF raw = df := by
        cases raw with
        | ok d => simpa [read_csv_file, parsedDF] using hr
        | exc e => cases e <;> simp [read_csv_file] at hr
      have ha : acceptedFile raw = validate_data (some df) := by
        simp [acceptedFile, hr]
      cases hv : validate_data (some df) <;>
        simp [processLoop, hr, ih, List.filter_cons, ha, hv, hp]
    | error e =>
      have ha : acceptedFile raw = false := by
        simp [acceptedFile, hr]
      simp [processLoop, hr, ih, List.filter_cons, ha]

theorem concatDFs_cols (dfs : List DataFrame) :
    (concatDFs dfs).cols = allCols dfs := rfl

theorem concatDFs_rows_length (dfs : List DataFrame) :
    (concatDFs dfs).rows.length = (dfs.map (fun d => d.rows.length)).sum := by
  simp only [concatDFs, List.length_flatten, List.map_map]
  exact congrArg List.sum (List.map_congr_left fun d _ => by simp [Function.comp])

theorem mem_unionCols {c : String} {a cs : List String} (h : c ∈ a ∨ c ∈ cs) :
    c ∈ unionCols a cs := by
  rcases h with h | h
  · exact List.mem_append_left _ h
  · by_cases ha : c ∈ a
    · exact List.mem_append_left _ ha
    · exact List.mem_append_right _ (List.mem_filter.2 ⟨h, by simp [ha]⟩)

theorem mem_allCols_aux {c : String} : ∀ (dfs : List DataFrame) (a : List String),
    (c ∈ a ∨ ∃ d ∈ dfs, c ∈ d.cols) →
    c ∈ dfs.foldl (fun a d => unionCols a d.cols) a
  | [], _, h => by
    rcases h with h | ⟨d, hd, _⟩
    · exact h
    · cases hd
  | d :: dfs, a, h => by
    apply mem_allCols_aux dfs (unionCols a d.cols)
    rcases h with h | ⟨e, he, hce⟩
    · exact Or.inl (mem_unionCols (Or.inl h))
    · rcases List.mem_cons.1 he with rfl | he'
      · exact Or.inl (mem_unionCols (Or.inr hce))
      · exact Or.inr ⟨e, he', hce⟩

theorem mem_allCols {c : String} {dfs : List DataFrame} {d : DataFrame}
    (hd : d ∈ dfs) (hc : c ∈ d.cols) : c ∈ allCols dfs :=
  mem_allCols_aux dfs [] (Or.inr ⟨d, hd, hc⟩)

theorem length_filter_partition (l : List (String × RawRead))
    (p : String × RawRead → Bool) :
    (l.filter p).length + (l.filter (fun e => !p e)).length = l.length := by
  induction l with
  | nil => rfl
  | cons x l ih =>
    cases hx : p x <;> simp [List.filter_cons, hx, ← ih] <;> omega

theorem isNaT_coerceDate (v : Value) : isNaT (coerceDate v) = unconvertible v := by
  cases v with
  | str s => cases h : parseDateStr s <;> simp [coerceDate, isNaT, unconvertible, h]
  | dateVal d => cases d <;> simp [coerceDate, isNaT, unconvertible]
  | time t => simp [coerceDate, isNaT, unconvertible]
  | nan => simp [coerceDate, isNaT, unconvertible]

theorem coerceDate_of_unconvertible {v : Value} (h : unconvertible v = true) :
    coerceDate v = .dateVal none := by
  cases v with
  | str s =>
    simp only [unconvertible, Option.isNone_iff_eq_none] at h
    simp [coerceDate, h]
  | dateVal d =>
    simp only [unconvertible, Option.isNone_iff_eq_none] at h
    simp [coerceDate, h]
  | time t => simp [unconvertible] at h
  | nan => simp [coerceDate]

theorem getCell_convRow : ∀ (cs : List String) (r : List Value),
    r.length = cs.length → "fecha" ∈ cs →
    getCell cs (convRow cs r) "fecha" = coerceDate (getCell cs r "fecha")
  | [], _, _, hmem => by cases hmem
  | c :: cs, [], hlen, _ => by simp at hlen
  | c :: cs, v :: vs, hlen, hmem => by
    by_cases hc : c = "fecha"
    · simp [convRow, getCell, hc]
    · have hmem' : "fecha" ∈ cs := by
        rcases List.mem_cons.1 hmem with h | h
        · exact absurd h.symm hc
        · exact h
      have hlen' : vs.length = cs.length := by simpa using hlen
      simp [convRow, getCell, hc, getCell_convRow cs vs hlen' hmem']

theorem getCell_map_retime : ∀ (cs : List String) (r : List Value) (n : String),
    getCell cs (r.map retime) n = retime (getCell cs r n)
  | c :: cs, v :: vs, n => by
    by_cases h : c = n <;> simp [getCell, h, getCell_map_retime cs vs n]
  | _ :: _, [], _ => by simp [getCell, retime]
  | [], r, n => by cases r <;> simp [getCell, retime]

theorem reindexRow_map_retime (oc nc : List String) (r : List Value) :
    reindexRow oc nc (r.map retime) = (reindexRow oc nc r).map retime := by
  simp only [reindexRow, List.map_map]
  exact List.map_congr_left fun c _ => getCell_map_retime oc r c

theorem mapCells_cols (f : Value → Value) (df : DataFrame) :
    (mapCells f df).cols = df.cols := rfl

theorem allCols_map_mapCells (f : Value → Value) (dfs : List DataFrame) :
    allCols (dfs.map (mapCells f)) = allCols dfs := by
  unfold allCols
  rw [List.foldl_map]
  rfl

theorem mapCells_concatDFs (dfs : List DataFrame) :
    mapCells retime (concatDFs dfs) = concatDFs (dfs.map (mapCells retime)) := by
  simp only [mapCells, concatDFs, allCols_map_mapCells]
  rw [DataFrame.mk.injEq]
  refine ⟨rfl, ?_⟩
  rw [List.map_flatten, List.map_map, List.map_map]
  apply congrArg List.flatten
  refine List.map_congr_left fun d _ => ?_
  simp only [Function.comp, mapCells, List.map_map]
  exact List.map_congr_left fun r _ => (reindexRow_map_retime d.cols _ r).symm

theorem mapCells_stampMetadata (name : String) (t : Nat) (d : DataFrame) :
    mapCells retime (stampMetadata name t d) =
      mapCells retime (stampMetadata name 0 d) := by
  simp [mapCells, stampMetadata, addConstCol, List.map_map, Function.comp,
    List.map_append, retime]

theorem missing_colums_convertFecha (df : DataFrame) :
    missing_colums (convertFecha df) = missing_colums df := by
  unfold missing_colums
  rw [convertFecha_cols]

theorem rowCount_process (now : Nat) (entries : List (String × RawRead)) :
    rowCount (process_all_files now (.found entries)) =
      (((csvFiles entries).filter (fun e => acceptedFile e.2)).map
        (fun e => (parsedDF e.2).rows.length)).sum := by
  simp only [process_all_files]
  by_cases h1 : csvFiles entries = []
  · simp [h1, rowCount]
  · rw [if_neg h1, processLoop_closed]
    by_cases h2 : (csvFiles entries).filter (fun e => acceptedFile e.2) = []
    · simp [h2, rowCount]
    · have hne : ((csvFiles entries).filter (fun e => acceptedFile e.2)).map
          (fun e => stampMetadata e.1 now (parsedDF e.2)) ≠ [] := by
        simpa [List.map_eq_nil_iff] using h2
      rw [if_neg hne]
      show (concatDFs _).rows.length = _
      rw [concatDFs_rows_length, List.map_map]
      exact congrArg List.sum (List.map_congr_left fun e _ => by
        simp [Function.comp, stampMetadata_rows_length])

theorem processLoop_valid_eq_nil_iff (now : Nat) (l : List (String × RawRead)) :
    (processLoop now l).valid_dataframes = [] ↔
      l.filter (fun e => acceptedFile e.2) = [] := by
  rw [processLoop_closed]
  simp [List.map_eq_nil_iff]

theorem mapCells_processLoop_valid (n₁ n₂ : Nat) (l : List (String × RawRead)) :
    (processLoop n₁ l).valid_dataframes.map (mapCells retime) =
    (processLoop n₂ l).valid_dataframes.map (mapCells retime) := by
  rw [processLoop_closed, processLoop_closed]
  simp only [List.map_map]
  refine List.map_congr_left fun e _ => ?_
  simp only [Function.comp]
  rw [mapCells_stampMetadata e.1 n₁, mapCells_stampMetadata e.1 n₂]

theorem processLoop_valid_mem {now : Nat} {l : List (String × RawRead)}
    {x : DataFrame} (hx : x ∈ (processLoop now l).valid_dataframes) :
    x.rows ≠ [] ∧ (∀ c ∈ required_colums, c ∈ x.cols) ∧
    "archivo_origen" ∈ x.cols ∧ "fecha_procesamiento" ∈ x.cols := by
  rw [processLoop_closed] at hx
  rcases List.mem_map.1 hx with ⟨e, he, rfl⟩
  have ha : acceptedFile e.2 = true := (List.mem_filter.1 he).2
  obtain ⟨-, hval⟩ := (acceptedFile_iff e.2).1 ha
  obtain ⟨hrows, hmiss⟩ := (validate_data_true_iff _).1 hval
  refine ⟨?_, ?_, ?_, ?_⟩
  · intro hcon
    apply hrows
    have hlen := stampMetadata_rows_length e.1 now (parsedDF e.2)
    rw [hcon] at hlen
    exact List.length_eq_zero.1 hlen.symm
  · intro c hc
    have hmem : c ∈ (parsedDF e.2).cols := (missing_colums_eq_nil_iff _).1 hmiss c hc
    rw [stampMetadata_cols]
    exact List.mem_append_left _ (List.mem_append_left _ hmem)
  · rw [stampMetadata_cols]
    exact List.mem_append_left _ (List.mem_append_right _ (by simp))
  · rw [stampMetadata_cols]
    exact List.mem_append_right _ (by simp)

theorem invalidDates_convertFecha (df : DataFrame)
    (hrect : ∀ r ∈ df.rows, r.length = df.cols.length)
    (hfecha : "fecha" ∈ df.cols) :
    invalidDates (convertFecha df) =
      df.rows.countP (fun r => unconvertible (getCell df.cols r "fecha")) := by
  have hcontains : df.cols.contains "fecha" = true := by simpa using hfecha
  unfold invalidDates convertFecha
  rw [if_pos hcontains]
  show (df.rows.map (convRow df.cols)).countP
      (fun r => isNaT (getCell df.cols r "fecha")) = _
  rw [List.countP_map]
  refine List.countP_congr fun r hr => ?_
  have h1 : getCell df.cols (convRow df.cols r) "fecha" =
      coerceDate (getCell df.cols r "fecha") :=
    getCell_convRow df.cols r (hrect r hr) hfecha
  simp [Function.comp, h1, isNaT_coerceDate]

/- Claim theorems. -/

/-- Claim C1: in every batch run the CombinedDataset's row count equals
the sum of the row counts of exactly the files that both parse and pass
validation; every other file contributes zero rows (it is absent from the
sum), its name appears in the failed-files list, and every discovered CSV
is processed (no early termination). -/
theorem c1_rowcount_and_failure_report (now : Nat)
    (entries : List (String × RawRead)) :
    rowCount (process_all_files now (.found entries)) =
      (((csvFiles entries).filter (fun e => acceptedFile e.2)).map
        (fun e => (parsedDF e.2).rows.length)).sum ∧
    (processLoop now (csvFiles entries)).failed_files =
      ((csvFiles entries).filter (fun e => !acceptedFile e.2)).map Prod.fst ∧
    (processLoop now (csvFiles entries)).processed_files =
      (csvFiles entries).map Prod.fst := by
  refine ⟨rowCount_process now entries, ?_, ?_⟩ <;> rw [processLoop_closed]

/-- Claim C2, counterexample: on a table that is missing `operario` but
carries an extra column, the validator rejects (as the claim says), yet
the reported missing-column list is `["operario"]`, not the symmetric
difference, which also holds `"extra"`. -/
theorem c2_symmdiff_counterexample :
    validate_data (some extraColsDF) = false ∧
    missing_colums extraColsDF = ["operario"] ∧
    symmDiffCols required_colums extraColsDF.cols = ["operario", "extra"] ∧
    missing_colums extraColsDF ≠ symmDiffCols required_colums extraColsDF.cols ∧
    "extra" ∈ symmDiffCols required_colums extraColsDF.cols ∧
    "extra" ∉ missing_colums extraColsDF := by
  decide

/-- Claim C2 as amended: a table missing at least one required column is
rejected, and the reported list is exactly the set difference
(required columns that are not present), not the symmetric difference. -/
theorem c2_missing_columns_amended (df : DataFrame)
    (h : missing_colums df ≠ []) :
    validate_data (some df) = false ∧
    ∀ c, c ∈ missing_colums df ↔ c ∈ required_colums ∧ c ∉ df.cols := by
  constructor
  · cases hv : validate_data (some df)
    · rfl
    · exact absurd ((validate_data_true_iff df).1 hv).2 h
  · intro c
    simp [missing_colums, List.mem_filter]

theorem c2_missing_columns_amended_witness :
    validate_data (some extraColsDF) = false ∧
    ∀ c, c ∈ missing_colums extraColsDF ↔
      c ∈ required_colums ∧ c ∉ extraColsDF.cols :=
  c2_missing_columns_amended extraColsDF (by decide)

/-- Claim C3: the parser boundary is total — every read outcome yields a
Table or exactly one of the four typed per-file failures; nothing
propagates uncaught. -/
theorem c3_parser_boundary_total (raw : RawRead) :
    (∃ df, read_csv_file raw = .ok df) ∨
    read_csv_file raw = .error .fileNotFound ∨
    read_csv_file raw = .error .emptyInput ∨
    (∃ m, read_csv_file raw = .error (.malformedInput m)) ∨
    (∃ n m, read_csv_file raw = .error (.unexpected n m)) := by
  cases raw with
  | ok df => exact Or.inl ⟨convertFecha df, rfl⟩
  | exc e =>
    cases e with
    | fileNotFoundError => exact Or.inr (Or.inl rfl)
    | emptyDataError => exact Or.inr (Or.inr (Or.inl rfl))
    | parserError m => exact Or.inr (Or.inr (Or.inr (Or.inl ⟨m, rfl⟩)))
    | otherExc n m => exact Or.inr (Or.inr (Or.inr (Or.inr ⟨n, m, rfl⟩)))

/-- Claim C4, counterexample: a header-only file does not get the
`EmptyInput` classification — the parse succeeds (pandas raises
`EmptyDataError` only for a zero-byte file), so the parser returns a
Table rather than the failure the claim asserts. -/
theorem c4_header_only_counterexample :
    read_csv_file (.ok headerOnlyDF) = .ok (convertFecha headerOnlyDF) ∧
    read_csv_file (.ok headerOnlyDF) ≠ .error .emptyInput := by
  exact ⟨rfl, by decide⟩

/-- Claim C4 as amended: a zero-byte file is classified `EmptyInput` and
never merged; a header-only file parses into an empty Table that the
validator's emptiness check rejects — it is likewise never merged, but
its rejection comes from validation, not the `EmptyInput` parse
classification.  Either way the file lands in the failed list. -/
theorem c4_empty_inputs_amended (now : Nat) (entries : List (String × RawRead)) :
    read_csv_file (.exc .emptyDataError) = .error .emptyInput ∧
    acceptedFile (.exc .emptyDataError) = false ∧
    (∀ cols, validate_data (some (convertFecha ⟨cols, []⟩)) = false ∧
      acceptedFile (.ok ⟨cols, []⟩) = false) ∧
    ∀ e ∈ csvFiles entries,
      (e.2 = .exc .emptyDataError ∨ ∃ cols, e.2 = .ok ⟨cols, []⟩) →
      e.1 ∈ (processLoop now (csvFiles entries)).failed_files := by
  have hempty : ∀ cols : List String,
      validate_data (some (convertFecha ⟨cols, []⟩)) = false := by
    intro cols
    cases hv : validate_data (some (convertFecha ⟨cols, []⟩))
    · rfl
    · obtain ⟨hrows, -⟩ := (validate_data_true_iff _).1 hv
      exact absurd (List.length_eq_zero.1 (by
        rw [convertFecha_rows_length]; rfl)) hrows
  refine ⟨rfl, rfl, fun cols => ⟨hempty cols, ?_⟩, ?_⟩
  · show validate_data (some (convertFecha ⟨cols, []⟩)) = false
    exact hempty cols
  · intro e he hkind
    have hacc : acceptedFile e.2 = false := by
      rcases hkind with hk | ⟨cols, hk⟩
      · rw [hk]; rfl
      · rw [hk]
        show validate_data (some (convertFecha ⟨cols, []⟩)) = false
        exact hempty cols
    rw [processLoop_closed]
    exact List.mem_map_of_mem Prod.fst
      (List.mem_filter.2 ⟨he, by simp [hacc]⟩)

theorem c4_empty_inputs_amended_witness :
    "z.csv" ∈ (processLoop 5 (csvFiles emptyOnlyEntries)).failed_files :=
  (c4_empty_inputs_amended 5 emptyOnlyEntries).2.2.2
    ("z.csv", .exc .emptyDataError) (by decide) (Or.inl rfl)

/-- Claim C5: a schema-valid, non-empty, rectangular file whose `fecha`
values are partly unconvertible is still parsed and accepted; each
unconvertible value becomes the missing-date sentinel NaT, and the
warned invalid-date count equals the number of unconvertible values. -/
theorem c5_unparseable_dates_tolerated (df : DataFrame)
    (hrect : ∀ r ∈ df.rows, r.length = df.cols.length)
    (hrows : df.rows ≠ [])
    (hmiss : missing_colums df = []) :
    read_csv_file (.ok df) = .ok (convertFecha df) ∧
    acceptedFile (.ok df) = true ∧
    (∀ r ∈ df.rows, unconvertible (getCell df.cols r "fecha") = true →
      getCell df.cols (convRow df.cols r) "fecha" = .dateVal none) ∧
    invalidDates (convertFecha df) =
      df.rows.countP (fun r => unconvertible (getCell df.cols r "fecha")) := by
  have hfecha : "fecha" ∈ df.cols :=
    (missing_colums_eq_nil_iff df).1 hmiss "fecha" (by simp [required_colums])
  refine ⟨rfl, ?_, ?_, invalidDates_convertFecha df hrect hfecha⟩
  · show validate_data (some (convertFecha df)) = true
    refine (validate_data_true_iff _).2 ⟨?_, ?_⟩
    · intro hcon
      exact hrows (List.length_eq_zero.1 (by
        rw [← convertFecha_rows_length df, hcon, List.length_nil]))
    · rw [missing_colums_convertFecha]
      exact hmiss
  · intro r hr hunc
    rw [getCell_convRow df.cols r (hrect r hr) hfecha]
    exact coerceDate_of_unconvertible hunc

theorem c5_unparseable_dates_witness :
    read_csv_file (.ok sampleGoodDF) = .ok (convertFecha sampleGoodDF) ∧
    acceptedFile (.ok sampleGoodDF) = true ∧
    (∀ r ∈ sampleGoodDF.rows,
      unconvertible (getCell sampleGoodDF.cols r "fecha") = true →
      getCell sampleGoodDF.cols (convRow sampleGoodDF.cols r) "fecha" =
        .dateVal none) ∧
    invalidDates (convertFecha sampleGoodDF) =
      sampleGoodDF.rows.countP
        (fun r => unconvertible (getCell sampleGoodDF.cols r "fecha")) :=
  c5_unparseable_dates_tolerated sampleGoodDF (by decide) (by decide) (by decide)

/-- Claim C6: a directory with no CSV candidates, or one in which no file
passes both parsing and validation, yields the no-data sentinel `none`
(and, the model being total, no exception). -/
theorem c6_no_data_sentinel (now : Nat) (entries : List (String × RawRead))
    (h : csvFiles entries = [] ∨ ∀ e ∈ csvFiles entries, acceptedFile e.2 = false) :
    process_all_files now (.found entries) = none := by
  simp only [process_all_files]
  rcases h with h | h
  · simp [h]
  · by_cases h1 : csvFiles entries = []
    · simp [h1]
    · have hf : (csvFiles entries).filter (fun e => acceptedFile e.2) = [] :=
        List.filter_eq_nil_iff.2 (fun e he => by simp [h e he])
      rw [if_neg h1, processLoop_closed]
      simp [hf]

theorem c6_no_data_sentinel_witness :
    process_all_files 3 (.found emptyOnlyEntries) = none :=
  c6_no_data_sentinel 3 emptyOnlyEntries (Or.inr (by decide))

/-- Claim C7: a missing input directory signals `DirectoryNotFound` and
the run aborts with no result; a permission failure signals
`PermissionDenied` and likewise aborts; a successful listing signals no
directory-level failure and the run processes every discovered CSV, so
only directory-level failures halt the run. -/
theorem c7_directory_failures_abort (now : Nat) :
    discoverySignal .notFound = some .directoryNotFound ∧
    process_all_files now .notFound = none ∧
    discoverySignal .permissionDenied = some .permissionDenied ∧
    process_all_files now .permissionDenied = none ∧
    ∀ entries, discoverySignal (.found entries) = none ∧
      (processLoop now (csvFiles entries)).processed_files =
        (csvFiles entries).map Prod.fst := by
  refine ⟨rfl, rfl, rfl, rfl, fun entries => ⟨rfl, ?_⟩⟩
  rw [processLoop_closed]

/-- Claim C8: two runs over the same unchanged directory produce results
with identical row content modulo the `fecha_procesamiento` timestamps —
after normalizing every timestamp cell the results coincide. -/
theorem c8_idempotent_modulo_timestamp (n₁ n₂ : Nat) (l : Listing) :
    Option.map (mapCells retime) (process_all_files n₁ l) =
      Option.map (mapCells retime) (process_all_files n₂ l) := by
  cases l with
  | notFound => rfl
  | permissionDenied => rfl
  | found entries =>
    simp only [process_all_files]
    by_cases h1 : csvFiles entries = []
    · simp [h1]
    · rw [if_neg h1, if_neg h1]
      by_cases h2 : (csvFiles entries).filter (fun e => acceptedFile e.2) = []
      · rw [if_pos ((processLoop_valid_eq_nil_iff n₁ _).2 h2),
          if_pos ((processLoop_valid_eq_nil_iff n₂ _).2 h2)]
      · rw [if_neg (fun hc => h2 ((processLoop_valid_eq_nil_iff n₁ _).1 hc)),
          if_neg (fun hc => h2 ((processLoop_valid_eq_nil_iff n₂ _).1 hc))]
        simp only [Option.map_some']
        apply congrArg some
        rw [mapCells_concatDFs, mapCells_concatDFs]
        exact congrArg concatDFs (mapCells_processLoop_valid n₁ n₂ _)

/-- Claim C9: the discovered CSVs are exactly partitioned by outcome —
the processed list names every CSV once, the failed list names exactly
the rejected CSVs, the valid collection holds one table per accepted
CSV, and processed count equals succeeded plus failed. -/
theorem c9_outcome_partition (now : Nat) (entries : List (String × RawRead)) :
    (processLoop now (csvFiles entries)).processed_files =
      (csvFiles entries).map Prod.fst ∧
    (processLoop now (csvFiles entries)).failed_files =
      ((csvFiles entries).filter (fun e => !acceptedFile e.2)).map Prod.fst ∧
    (processLoop now (csvFiles entries)).valid_dataframes.length =
      ((csvFiles entries).filter (fun e => acceptedFile e.2)).length ∧
    (processLoop now (csvFiles entries)).processed_files.length =
      (processLoop now (csvFiles entries)).valid_dataframes.length +
        (processLoop now (csvFiles entries)).failed_files.length := by
  rw [processLoop_closed]
  refine ⟨rfl, rfl, by simp, ?_⟩
  simp only [List.length_map]
  exact (length_filter_partition _ _).symm

/-- Claim C10: a non-null result always holds at least one row and all
five required columns plus both provenance columns, so the post-merge
summary statistics (over `fecha`, `maquina`, `turno`) are always
defined. -/
theorem c10_nonnull_result_wellformed (now : Nat)
    (entries : List (String × RawRead)) (df : DataFrame)
    (h : process_all_files now (.found entries) = some df) :
    0 < df.rows.length ∧
    (∀ c ∈ required_colums, c ∈ df.cols) ∧
    "archivo_origen" ∈ df.cols ∧ "fecha_procesamiento" ∈ df.cols ∧
    (summaryStats df).isSome = true := by
  simp only [process_all_files] at h
  by_cases h1 : csvFiles entries = []
  · simp [h1] at h
  · rw [if_neg h1] at h
    by_cases h2 : (processLoop now (csvFiles entries)).valid_dataframes = []
    · rw [if_pos h2] at h
      exact absurd h (by simp)
    · rw [if_neg h2] at h
      obtain rfl := (Option.some.inj h).symm
      obtain ⟨x, rest, hV⟩ :
          ∃ x rest, (processLoop now (csvFiles entries)).valid_dataframes
            = x :: rest := by
        cases hV : (processLoop now (csvFiles entries)).valid_dataframes with
        | nil => exact absurd hV h2
        | cons x rest => exact ⟨x, rest, rfl⟩
      have hxmem : x ∈ (processLoop now (csvFiles entries)).valid_dataframes := by
        rw [hV]; exact List.mem_cons_self x rest
      obtain ⟨hxrows, hxreq, hxorig, hxts⟩ := processLoop_valid_mem hxmem
      have hreq : ∀ c ∈ required_colums,
          c ∈ (concatDFs (processLoop now (csvFiles entries)).valid_dataframes).cols := by
        intro c hc
        rw [concatDFs_cols]
        exact mem_allCols hxmem (hxreq c hc)
      have horig : "archivo_origen" ∈
          (concatDFs (processLoop now (csvFiles entries)).valid_dataframes).cols := by
        rw [concatDFs_cols]; exact mem_allCols hxmem hxorig
      have hts : "fecha_procesamiento" ∈
          (concatDFs (processLoop now (csvFiles entries)).valid_dataframes).cols := by
        rw [concatDFs_cols]; exact mem_allCols hxmem hxts
      have hpos : 0 <
          (concatDFs (processLoop now (csvFiles entries)).valid_dataframes).rows.length := by
        rw [concatDFs_rows_length, hV]
        have : 0 < x.rows.length := List.length_pos.2 hxrows
        simp only [List.map_cons, List.sum_cons]
        omega
      refine ⟨hpos, hreq, horig, hts, ?_⟩
      have hf : ∀ c ∈ required_colums,
          (concatDFs (processLoop now (csvFiles entries)).valid_dataframes).cols.contains c
            = true := fun c hc => by simpa using hreq c hc
      simp only [summaryStats, getColumn,
        hf "fecha" (by simp [required_colums]),
        hf "maquina" (by simp [required_colums]),
        hf "turno" (by simp [required_colums]), if_true]
      rfl

theorem c10_nonnull_result_witness :
    0 < combinedSample.rows.length ∧
    (∀ c ∈ required_colums, c ∈ combinedSample.cols) ∧
    "archivo_origen" ∈ combinedSample.cols ∧
    "fecha_procesamiento" ∈ combinedSample.cols ∧
    (summaryStats combinedSample).isSome = true :=
  c10_nonnull_result_wellformed 5 sampleEntries combinedSample (by decide)

end FileProcessor
